import Mathlib

/-!
Verification of the core client-side logic of a storefront/admin catalog
application: tiered price resolution, variant-distribution validation,
checkout gating, media management (upload validation, crop pipeline,
featured-item bookkeeping), YouTube link parsing, and user-list
management.  Every definition is a shallow embedding of the
corresponding TypeScript function; JS-specific behaviours (truthiness of
`0`/`undefined`/`""`, `Array.prototype.slice` with a negative end index,
stable `sort`) are modelled explicitly where they matter.
-/

namespace Fanfast

/-! ## Data model: price tiers and variant distribution -/

/-- A quantity-band price tier (`PriceTier` records fetched by
`useTieredPricing`).  `max_quantity` is `none` when the band is
unbounded above; prices are in minor currency units.  An absent
discounted price is `none`. -/
structure PriceTier where
  min_quantity : Nat
  max_quantity : Option Nat
  unit_price : Nat
  discounted_unit_price : Option Nat
deriving Repr, DecidableEq

/-- A variant-distribution entry (`distributionItems` element in
`ProductDetailsPage`): `color`/`size` are `none` when the attribute is
not set (`undefined` in the source). -/
structure DistItem where
  id : String
  color : Option String
  size : Option String
  quantity : Nat
deriving Repr, DecidableEq

/-- `distributedQuantity`: `distributionItems.reduce((sum, item) => sum + item.quantity, 0)`. -/
def sumQ (items : List DistItem) : Nat :=
  (items.map DistItem.quantity).sum

/-- `addDistributionItem` from `ProductDetailsPage`.  Guards, in source
order: required color (when the product offers colors), required size
(when it offers sizes), positive quantity, no overflow of the requested
total, no duplicate `(color, size)` combination.  Each guard returns the
list unchanged (the source shows a toast and returns); otherwise the new
entry is appended, with the attributes masked to `undefined` when the
product does not offer them.  Quantities are `Nat`, so the source's
`newItemQuantity <= 0` test becomes `= 0`. -/
def addDistributionItem (hasColors hasSizes : Bool) (total : Nat)
    (items : List DistItem) (newItemColor newItemSize : Option String)
    (newItemQuantity : Nat) (newId : String) : List DistItem :=
  if hasColors && newItemColor.isNone then items
  else if hasSizes && newItemSize.isNone then items
  else if newItemQuantity = 0 then items
  else if total < sumQ items + newItemQuantity then items
  else if items.any (fun it => it.color == newItemColor && it.size == newItemSize) then items
  else items ++ [{ id := newId
                 , color := if hasColors then newItemColor else none
                 , size := if hasSizes then newItemSize else none
                 , quantity := newItemQuantity }]

/-- `removeDistributionItem`: keeps every entry whose id differs. -/
def removeDistributionItem (items : List DistItem) (i : String) : List DistItem :=
  items.filter (fun it => it.id != i)

/-- `updateDistributionItemQuantity`: a non-positive new quantity removes
the entry; otherwise the entry's quantity is overwritten in place.  Note
the source performs no check against the requested total here. -/
def updateDistributionItemQuantity (items : List DistItem) (i : String)
    (newQty : Nat) : List DistItem :=
  if newQty = 0 then removeDistributionItem items i
  else items.map (fun it => if it.id == i then { it with quantity := newQty } else it)

/-- One user-level operation on the distribution list. -/
inductive DistOp where
  | add (color size : Option String) (qty : Nat) (newId : String)
  | remove (i : String)
deriving Repr, DecidableEq

/-- Interpretation of a single distribution-list operation. -/
def applyDistOp (hasColors hasSizes : Bool) (total : Nat)
    (items : List DistItem) : DistOp → List DistItem
  | .add c s q i => addDistributionItem hasColors hasSizes total items c s q i
  | .remove i => removeDistributionItem items i

/-- A whole sequence of distribution-list operations, applied left to right. -/
def applyDistOps (hasColors hasSizes : Bool) (total : Nat)
    (items : List DistItem) (ops : List DistOp) : List DistItem :=
  ops.foldl (applyDistOp hasColors hasSizes total) items

/-! ## Tiered price resolution, both implementations -/

/-- The tier lookup inside `ProductDetailsPage.handleAddToCart`:
`priceTiers.find(tier => quantity >= tier.min_quantity)?.unit_price || product.price`.
`find` takes the first listed tier whose `min_quantity` is at most the
quantity and ignores `max_quantity`; the `||` makes a missing tier or a
zero `unit_price` fall back to the base price (JS truthiness). -/
def resolveUnitPriceFind (tiers : List PriceTier) (price : Nat) (q : Nat) : Nat :=
  match tiers.find? (fun t => t.min_quantity ≤ q) with
  | some t => if t.unit_price = 0 then price else t.unit_price
  | none => price

/-- The unit price `ProductDetailsPage.handleAddToCart` passes to
`addToCart`: `none` models the `undefined` used when tiered pricing is
off or no tiers are loaded. -/
def unitPriceMain (hasTiered : Bool) (tiers : List PriceTier) (price q : Nat) :
    Option Nat :=
  if hasTiered && !tiers.isEmpty then some (resolveUnitPriceFind tiers price q)
  else none

/-- Stable insertion used to model the JS stable `sort((a, b) => a.min_quantity - b.min_quantity)`:
an element is placed after all previously sorted elements whose key is
not larger. -/
def insertByMin (acc : List PriceTier) (t : PriceTier) : List PriceTier :=
  match acc with
  | [] => [t]
  | u :: us => if u.min_quantity ≤ t.min_quantity then u :: insertByMin us t
               else t :: u :: us

/-- `[...priceTiers].sort((a, b) => a.min_quantity - b.min_quantity)` (stable). -/
def sortTiersByMin (tiers : List PriceTier) : List PriceTier :=
  tiers.foldl insertByMin []

/-- The filter predicate in the second product-details page:
`quantity >= tier.min_quantity && (!tier.max_quantity || quantity <= tier.max_quantity)`.
`!tier.max_quantity` is `true` for an absent bound and also for a bound
of `0` (JS truthiness of `0`). -/
def tierMatches (q : Nat) (t : PriceTier) : Bool :=
  t.min_quantity ≤ q &&
    (match t.max_quantity with
     | none => true
     | some m => m = 0 || q ≤ m)

/-- The unit price computed by the second (admin-bundled) product-details
page's `handleAddToCart`: sort by `min_quantity`, keep the tiers whose
band contains the quantity, take the last (`pop`), and prefer
`discounted_unit_price || unit_price` (JS truthiness: a `0` discount
falls back to `unit_price`).  `none` models `undefined`. -/
def unitPriceAdmin (hasTiered : Bool) (tiers : List PriceTier) (q : Nat) :
    Option Nat :=
  if hasTiered && !tiers.isEmpty then
    match ((sortTiersByMin tiers).filter (tierMatches q)).getLast? with
    | some t => some (match t.discounted_unit_price with
                      | some d => if d = 0 then t.unit_price else d
                      | none => t.unit_price)
    | none => none
  else none

/-- Modelled from the spec: the tier-selection rule of sections 4.1 and 8
(the `useTieredPricing` hook itself is not under `src/`): among tiers
whose `[min_quantity, max_quantity-or-unbounded]` range contains the
quantity, choose the tier with the largest `min_quantity`. -/
def specBestTier (tiers : List PriceTier) (q : Nat) : Option PriceTier :=
  (tiers.filter (fun t =>
      t.min_quantity ≤ q &&
        (match t.max_quantity with | none => true | some m => q ≤ m))).foldl
    (fun best t =>
      match best with
      | none => some t
      | some b => if b.min_quantity ≤ t.min_quantity then some t else some b)
    none

/-- Modelled from the spec: the resolved unit price per sections 4.1 and 8 —
the selected tier's price (discounted when present), else the product's
discounted (when present) or base price. -/
def specResolvedUnitPrice (tiers : List PriceTier) (basePrice : Nat)
    (baseDiscounted : Option Nat) (q : Nat) : Nat :=
  match specBestTier tiers q with
  | some t => match t.discounted_unit_price with
              | some d => d
              | none => t.unit_price
  | none => match baseDiscounted with
            | some d => d
            | none => basePrice

/-! ## The add-to-cart handler of `ProductDetailsPage` -/

/-- One `addToCart(product, color, size, quantity, unitPrice)` call. -/
structure CartCall where
  color : Option String
  size : Option String
  quantity : Nat
  unitPrice : Option Nat
deriving Repr, DecidableEq

/-- The component state `handleAddToCart` reads and writes: the cart is
the trace of `addToCart` calls issued so far. -/
structure PageState where
  cart : List CartCall
  distributionItems : List DistItem
  quantity : Nat
  selectedColor : Option String
  selectedSize : Option String
deriving Repr, DecidableEq

/-- The quantity `handleAddToCart` resets to:
`product.has_tiered_pricing && priceTiers.length > 0 ? priceTiers[0].min_quantity : 1`. -/
def resetQuantity (hasTiered : Bool) (tiers : List PriceTier) : Nat :=
  match hasTiered, tiers with
  | true, t :: _ => t.min_quantity
  | true, [] => 1
  | false, _ => 1

/-- `ProductDetailsPage.handleAddToCart`.  Guards in source order:
availability/price, then — in distribution mode with options — the
distribution must be complete (`distributedQuantity === quantity`) and
non-empty before each entry is sent to the cart; otherwise a single
entry is sent.  On success the quantity, distribution list and selected
attributes are reset. -/
def handleAddToCart (isAvailable hasPrice distributionMode hasOptions hasTiered : Bool)
    (tiers : List PriceTier) (price : Nat) (st : PageState) : PageState :=
  if !isAvailable || !hasPrice then st
  else
    let unitPrice := unitPriceMain hasTiered tiers price st.quantity
    if distributionMode && hasOptions then
      if sumQ st.distributionItems ≠ st.quantity then st
      else if st.distributionItems.isEmpty then st
      else
        { cart := st.cart ++ st.distributionItems.map (fun it =>
            { color := it.color, size := it.size, quantity := it.quantity
            , unitPrice := unitPrice })
        , distributionItems := []
        , quantity := resetQuantity hasTiered tiers
        , selectedColor := none
        , selectedSize := none }
    else
      { cart := st.cart ++ [{ color := none, size := none, quantity := st.quantity
                            , unitPrice := unitPrice }]
      , distributionItems := []
      , quantity := resetQuantity hasTiered tiers
      , selectedColor := none
      , selectedSize := none }

/-! ## Helper lemmas: distribution sums -/

theorem sumQ_nil : sumQ [] = 0 := rfl

theorem sumQ_cons (it : DistItem) (items : List DistItem) :
    sumQ (it :: items) = it.quantity + sumQ items := by
  simp [sumQ]

theorem sumQ_append (l₁ l₂ : List DistItem) :
    sumQ (l₁ ++ l₂) = sumQ l₁ + sumQ l₂ := by
  simp [sumQ]

theorem sumQ_removeDistributionItem_le (items : List DistItem) (i : String) :
    sumQ (removeDistributionItem items i) ≤ sumQ items := by
  unfold removeDistributionItem
  induction items with
  | nil => simp
  | cons h t ih =>
    rw [List.filter_cons]
    split
    · rw [sumQ_cons, sumQ_cons]; omega
    · rw [sumQ_cons]; omega

theorem sumQ_addDistributionItem_le (hc hs : Bool) (total : Nat)
    (items : List DistItem) (c s : Option String) (q : Nat) (i : String)
    (h : sumQ items ≤ total) :
    sumQ (addDistributionItem hc hs total items c s q i) ≤ total := by
  unfold addDistributionItem
  repeat' split
  any_goals exact h
  all_goals simp [sumQ_append, sumQ_cons, sumQ_nil]
  all_goals omega

theorem applyDistOps_sumQ_le (hc hs : Bool) (total : Nat) (ops : List DistOp) :
    ∀ items : List DistItem, sumQ items ≤ total →
      sumQ (applyDistOps hc hs total items ops) ≤ total := by
  induction ops with
  | nil => intro items h; simpa [applyDistOps] using h
  | cons op rest ih =>
    intro items h
    rw [applyDistOps, List.foldl_cons]
    apply ih
    cases op with
    | add c s q i => exact sumQ_addDistributionItem_le hc hs total items c s q i h
    | remove i => exact le_trans (sumQ_removeDistributionItem_le items i) h

/-! ## Claim C2: distribution-sum invariant -/

/-- C2 (counterexample): the distribution-sum invariant fails once
`updateDistributionItemQuantity` is allowed: with a requested total of 5,
adding an accepted entry of quantity 3 and then updating its quantity to
100 drives the sum of the distribution items to 100, exceeding the total
— `updateDistributionItemQuantity` performs no bound check. -/
theorem distribution_sum_update_exceeds_total :
    5 < sumQ (updateDistributionItemQuantity
        (addDistributionItem false false 5 [] none none 3 "a") "a" 100) ∧
    sumQ (addDistributionItem false false 5 [] none none 3 "a") ≤ 5 := by
  decide

/-- C2 (amended): for every sequence of `addDistributionItem` and
`removeDistributionItem` operations starting from the empty distribution
list, the sum of the accepted distribution item quantities never exceeds
the requested total quantity.  (`updateDistributionItemQuantity` is
excluded: it lacks the bound check.) -/
theorem distribution_sum_invariant_add_remove (hasColors hasSizes : Bool)
    (total : Nat) (ops : List DistOp) :
    sumQ (applyDistOps hasColors hasSizes total [] ops) ≤ total :=
  applyDistOps_sumQ_le hasColors hasSizes total ops [] (Nat.zero_le total)

/-! ## Claim C4: duplicate and missing-attribute rejection -/

/-- C4: `addDistributionItem` rejects — leaving the distribution list
unchanged — every new entry whose `(color, size)` pair equals the pair of
some item already in the list, every entry missing a color when the
product offers colors, and every entry missing a size when the product
offers sizes. -/
theorem addDistributionItem_rejects_duplicate_and_missing
    (hasColors hasSizes : Bool) (total : Nat) (items : List DistItem)
    (c s : Option String) (q : Nat) (i : String)
    (h : (∃ it ∈ items, it.color = c ∧ it.size = s)
       ∨ (hasColors = true ∧ c = none) ∨ (hasSizes = true ∧ s = none)) :
    addDistributionItem hasColors hasSizes total items c s q i = items := by
  unfold addDistributionItem
  rcases h with ⟨it, hmem, hco, hsz⟩ | ⟨hhc, hcn⟩ | ⟨hhs, hsn⟩
  · have hany : items.any (fun it => it.color == c && it.size == s) = true := by
      rw [List.any_eq_true]
      exact ⟨it, hmem, by simp [hco, hsz]⟩
    simp [hany]
  · simp [hhc, hcn]
  · by_cases h1 : (hasColors && c.isNone) = true
    · simp [h1]
    · simp [h1, hhs, hsn]

theorem addDistributionItem_rejects_witness :
    addDistributionItem true false 5 [⟨"x", some "red", none, 1⟩]
        (some "red") none 2 "y" = [⟨"x", some "red", none, 1⟩] :=
  addDistributionItem_rejects_duplicate_and_missing true false 5
    [⟨"x", some "red", none, 1⟩] (some "red") none 2 "y"
    (Or.inl ⟨⟨"x", some "red", none, 1⟩, by simp, rfl, rfl⟩)

/-! ## Claim C1: tiered price resolution -/

/-- C1 (code bug): the claim — resolve to the unit price of the matching
tier with the largest `min_quantity`, falling back to the base price —
is what `specResolvedUnitPrice` states and what the second
product-details page computes, but `ProductDetailsPage.handleAddToCart`
resolves via `find` on `min_quantity` only: on tiers
`[{min 1, max 5, price 10}, {min 6, unbounded, price 8}]` and quantity 6
it returns 10 (the first tier, whose band does not even contain 6) where
the claim requires 8. -/
theorem tier_resolution_find_diverges_from_spec :
    unitPriceMain true [⟨1, some 5, 10, none⟩, ⟨6, none, 8, none⟩] 100 6 = some 10 ∧
    specResolvedUnitPrice [⟨1, some 5, 10, none⟩, ⟨6, none, 8, none⟩] 100 none 6 = 8 ∧
    unitPriceAdmin true [⟨1, some 5, 10, none⟩, ⟨6, none, 8, none⟩] 6 = some 8 := by
  decide

/-! ## Claim C5: equivalence of the two tier-selection implementations -/

/-- C5 (counterexample): the two `handleAddToCart` tier selections are
not equivalent: on tiers `[{min 1, max 5, price 10}, {min 6, unbounded,
price 8}]` and quantity 6, `ProductDetailsPage` computes 10 while the
second product-details page computes 8. -/
theorem tier_selection_implementations_differ :
    unitPriceMain true [⟨1, some 5, 10, none⟩, ⟨6, none, 8, none⟩] 100 6 ≠
      unitPriceAdmin true [⟨1, some 5, 10, none⟩, ⟨6, none, 8, none⟩] 6 := by
  decide

/-- C5 (amended): the two implementations are not equivalent in general;
they agree whenever tiered pricing is off (both yield no unit price),
and on a single-tier list whose tier's band contains the quantity, has a
nonzero `unit_price` and no `discounted_unit_price`. -/
theorem tier_selection_agreement_single_tier
    (t : PriceTier) (price q : Nat) (tiers : List PriceTier)
    (hmin : t.min_quantity ≤ q)
    (hmax : ∀ m, t.max_quantity = some m → q ≤ m)
    (hdisc : t.discounted_unit_price = none)
    (hunit : t.unit_price ≠ 0) :
    unitPriceMain true [t] price q = unitPriceAdmin true [t] q ∧
    unitPriceMain false tiers price q = unitPriceAdmin false tiers q := by
  refine ⟨?_, by simp [unitPriceMain, unitPriceAdmin]⟩
  have hsort : sortTiersByMin [t] = [t] := rfl
  have hmatch : tierMatches q t = true := by
    unfold tierMatches
    cases hm : t.max_quantity with
    | none => simp [hmin]
    | some m => simp [hmin, hmax m hm]
  unfold unitPriceMain unitPriceAdmin resolveUnitPriceFind
  rw [hsort]
  simp [List.find?_cons, hmin, hmatch, List.filter_cons, hdisc, hunit]

theorem tier_selection_agreement_witness :
    unitPriceMain true [⟨2, some 10, 7, none⟩] 100 3 =
      unitPriceAdmin true [⟨2, some 10, 7, none⟩] 3 :=
  (tier_selection_agreement_single_tier ⟨2, some 10, 7, none⟩ 100 3 []
    (by decide) (by intro m hm; cases hm; decide) rfl (by decide)).1

/-! ## Claim C3: checkout gating in distribution mode -/

/-- C3: in distribution mode with variant options (a mode the page only
enters with a positive requested quantity), `handleAddToCart` sends the
distribution items to the cart iff their quantities sum exactly to the
requested quantity; when the sums differ the whole state — cart and
distribution list included — is left unchanged. -/
theorem handleAddToCart_distribution_gating
    (hasTiered : Bool) (tiers : List PriceTier) (price : Nat) (st : PageState)
    (hq : 0 < st.quantity) :
    ((handleAddToCart true true true true hasTiered tiers price st).cart ≠ st.cart
        ↔ sumQ st.distributionItems = st.quantity) ∧
    (sumQ st.distributionItems ≠ st.quantity →
        handleAddToCart true true true true hasTiered tiers price st = st) := by
  unfold handleAddToCart
  by_cases hsum : sumQ st.distributionItems = st.quantity
  · have hne : st.distributionItems ≠ [] := by
      intro hnil
      rw [hnil, sumQ_nil] at hsum
      omega
    simp [hsum, List.isEmpty_iff, hne, List.append_right_eq_self,
      List.map_eq_nil_iff]
  · simp [hsum]

theorem handleAddToCart_distribution_gating_witness :
    ((handleAddToCart true true true true false [] 100
        ⟨[], [⟨"a", some "red", none, 2⟩], 2, none, none⟩).cart
        ≠ ([] : List CartCall)
      ↔ sumQ [⟨"a", some "red", none, 2⟩] = 2) ∧
    (sumQ [⟨"a", some "red", none, 2⟩] ≠ 2 →
      handleAddToCart true true true true false [] 100
          ⟨[], [⟨"a", some "red", none, 2⟩], 2, none, none⟩
        = ⟨[], [⟨"a", some "red", none, 2⟩], 2, none, none⟩) :=
  handleAddToCart_distribution_gating false [] 100
    ⟨[], [⟨"a", some "red", none, 2⟩], 2, none, none⟩ (by decide)

/-! ## Character-list utilities shared by the JS string operations -/

/-- Boolean prefix test on character lists (definitionally transparent). -/
def isPre : List Char → List Char → Bool
  | [], _ => true
  | _ :: _, [] => false
  | a :: as, b :: bs => if a = b then isPre as bs else false

/-- `String.prototype.includes`: the needle occurs contiguously somewhere
in the haystack (an empty needle always occurs). -/
def hasSub (needle : List Char) : List Char → Bool
  | [] => isPre needle []
  | c :: cs => isPre needle (c :: cs) || hasSub needle cs

/-- JS `toLowerCase`, modelled character-wise. -/
def strLower (s : String) : List Char := s.toList.map Char.toLower

/-! ## Users management page -/

/-- A user record as read by `UsersManagementPage`; `slug` is optional. -/
structure User where
  id : String
  name : String
  email : String
  slug : Option String
  role : String
  is_blocked : Bool
  plan_status : String
deriving Repr, DecidableEq

/-- The search clause of the filter effect: the term is a
case-insensitive substring of the name, the email, or the slug (a
missing slug never matches, as `user.slug && ...` is falsy). -/
def searchMatches (term : String) (u : User) : Bool :=
  hasSub (strLower term) (strLower u.name)
    || hasSub (strLower term) (strLower u.email)
    || (match u.slug with
        | some sl => hasSub (strLower term) (strLower sl)
        | none => false)

/-- The filtering effect of `UsersManagementPage` (the `displayedUsers`
computation): search, role, status and plan filters applied in sequence;
a status value other than `all`/`active`/`blocked` filters nothing, as
in the source's if/else-if chain. -/
def computeDisplayedUsers (users : List User)
    (searchTerm roleFilter statusFilter planFilter : String) : List User :=
  let f1 := if searchTerm ≠ "" then users.filter (searchMatches searchTerm) else users
  let f2 := if roleFilter ≠ "all" then f1.filter (fun u => u.role == roleFilter) else f1
  let f3 :=
    if statusFilter ≠ "all" then
      if statusFilter = "active" then f2.filter (fun u => !u.is_blocked)
      else if statusFilter = "blocked" then f2.filter (fun u => u.is_blocked)
      else f2
    else f2
  if planFilter ≠ "all" then f3.filter (fun u => u.plan_status == planFilter) else f3

/-- The claim's single conjunctive predicate: every active filter must
admit the user; a filter set to `all` (or an empty search term) admits
every user. -/
def claimAdmits (searchTerm roleFilter statusFilter planFilter : String)
    (u : User) : Bool :=
  (decide (searchTerm = "") || searchMatches searchTerm u)
    && (decide (roleFilter = "all") || u.role == roleFilter)
    && (decide (statusFilter = "all")
        || (decide (statusFilter = "active") && !u.is_blocked)
        || (decide (statusFilter = "blocked") && u.is_blocked))
    && (decide (planFilter = "all") || u.plan_status == planFilter)

/-- An inactive filter stage is the same as filtering by a disjunction
that is true when the stage is inactive. -/
theorem stage_if {α β : Type} [DecidableEq β] (x y : β) (l : List α) (q : α → Bool) :
    (if x ≠ y then l.filter q else l) = l.filter (fun a => decide (x = y) || q a) := by
  by_cases h : x = y <;> simp [h]

/-! ## Claim C9: user list filtering -/

/-- C9: for every fetched user list and filter combination (with the
status filter one of its three UI values), the displayed list is exactly
the original-order subsequence of users satisfying all active filters at
once. -/
theorem displayedUsers_eq_conjunctive_filter (users : List User)
    (s r stf p : String)
    (hst : stf = "all" ∨ stf = "active" ∨ stf = "blocked") :
    computeDisplayedUsers users s r stf p
        = users.filter (claimAdmits s r stf p) ∧
    (computeDisplayedUsers users s r stf p).Sublist users := by
  have heq : computeDisplayedUsers users s r stf p
      = users.filter (claimAdmits s r stf p) := by
    rcases hst with rfl | rfl | rfl <;>
      by_cases hs : s = "" <;> by_cases hr : r = "all" <;> by_cases hp : p = "all" <;>
        simp [computeDisplayedUsers, hs, hr, hp, List.filter_filter,
          List.filter_true] <;>
        first
        | (symm
           rw [List.filter_eq_self]
           intro u _
           simp [claimAdmits, hs, hr, hp])
        | (apply List.filter_congr
           intro u _
           simp [claimAdmits, hs, hr, hp, Bool.and_comm, Bool.and_left_comm,
             Bool.and_assoc])
  exact ⟨heq, heq ▸ List.filter_sublist users⟩

theorem displayedUsers_eq_conjunctive_filter_witness :
    computeDisplayedUsers
        [⟨"1", "Ana", "ana@x.io", none, "user", true, "active"⟩,
         ⟨"2", "Bo", "bo@x.io", some "bo", "user", false, "active"⟩]
        "" "all" "active" "all"
      = List.filter (claimAdmits "" "all" "active" "all")
          [⟨"1", "Ana", "ana@x.io", none, "user", true, "active"⟩,
           ⟨"2", "Bo", "bo@x.io", some "bo", "user", false, "active"⟩] ∧
    (computeDisplayedUsers
        [⟨"1", "Ana", "ana@x.io", none, "user", true, "active"⟩,
         ⟨"2", "Bo", "bo@x.io", some "bo", "user", false, "active"⟩]
        "" "all" "active" "all").Sublist
      [⟨"1", "Ana", "ana@x.io", none, "user", true, "active"⟩,
       ⟨"2", "Bo", "bo@x.io", some "bo", "user", false, "active"⟩] :=
  displayedUsers_eq_conjunctive_filter
    [⟨"1", "Ana", "ana@x.io", none, "user", true, "active"⟩,
     ⟨"2", "Bo", "bo@x.io", some "bo", "user", false, "active"⟩]
    "" "all" "active" "all" (Or.inr (Or.inl rfl))

/-! ## Claim C10: block-toggle atomicity and frame -/

/-- `handleToggleBlock` from `UsersManagementPage`: when the remote
update fails (the thrown error is caught) the local list is untouched;
on success every user whose id matches gets `is_blocked := !currentBlocked`
and all the others are kept as they are. -/
def handleToggleBlock (remoteOk : Bool) (userId : String) (currentBlocked : Bool)
    (users : List User) : List User :=
  if remoteOk then
    users.map (fun u =>
      if u.id == userId then { u with is_blocked := !currentBlocked } else u)
  else users

/-- C10: if the remote update fails, the local users state is unchanged;
if it succeeds, the targeted user (whose current flag the caller passes
as `currentBlocked`) has exactly its `is_blocked` flag negated, and every
user at another position is unchanged. -/
theorem handleToggleBlock_frame (users : List User) (userId : String)
    (currentBlocked : Bool) (i : Nat) (u : User)
    (hu : users[i]? = some u) :
    handleToggleBlock false userId currentBlocked users = users ∧
    (u.id = userId → u.is_blocked = currentBlocked →
      (handleToggleBlock true userId currentBlocked users)[i]? =
        some { u with is_blocked := !u.is_blocked }) ∧
    (u.id ≠ userId →
      (handleToggleBlock true userId currentBlocked users)[i]? = some u) := by
  refine ⟨by simp [handleToggleBlock], ?_, ?_⟩
  · intro hid hbl
    simp [handleToggleBlock, List.getElem?_map, hu, hid, ← hbl]
  · intro hid
    simp [handleToggleBlock, List.getElem?_map, hu, hid]

theorem handleToggleBlock_frame_witness :
    handleToggleBlock false "2" false
        [⟨"1", "Ana", "ana@x.io", none, "user", true, "active"⟩,
         ⟨"2", "Bo", "bo@x.io", some "bo", "user", false, "active"⟩]
      = [⟨"1", "Ana", "ana@x.io", none, "user", true, "active"⟩,
         ⟨"2", "Bo", "bo@x.io", some "bo", "user", false, "active"⟩] ∧
    (handleToggleBlock true "2" false
        [⟨"1", "Ana", "ana@x.io", none, "user", true, "active"⟩,
         ⟨"2", "Bo", "bo@x.io", some "bo", "user", false, "active"⟩])[1]? =
      some { (⟨"2", "Bo", "bo@x.io", some "bo", "user", false, "active"⟩ : User)
              with is_blocked := !false } ∧
    (handleToggleBlock true "2" false
        [⟨"1", "Ana", "ana@x.io", none, "user", true, "active"⟩,
         ⟨"2", "Bo", "bo@x.io", some "bo", "user", false, "active"⟩])[0]? =
      some ⟨"1", "Ana", "ana@x.io", none, "user", true, "active"⟩ := by
  have h2 := handleToggleBlock_frame
    [⟨"1", "Ana", "ana@x.io", none, "user", true, "active"⟩,
     ⟨"2", "Bo", "bo@x.io", some "bo", "user", false, "active"⟩]
    "2" false 1 ⟨"2", "Bo", "bo@x.io", some "bo", "user", false, "active"⟩ (by decide)
  have h0 := handleToggleBlock_frame
    [⟨"1", "Ana", "ana@x.io", none, "user", true, "active"⟩,
     ⟨"2", "Bo", "bo@x.io", some "bo", "user", false, "active"⟩]
    "2" false 0 ⟨"1", "Ana", "ana@x.io", none, "user", true, "active"⟩ (by decide)
  exact ⟨h2.1, h2.2.1 rfl rfl, h0.2.2 (by decide)⟩

/-! ## Media manager (`ProductImageManager`) -/

/-- The slice of a browser `File` the manager reads: name, byte size,
MIME type. -/
structure JsFile where
  name : String
  size : Nat
  type : String
deriving Repr, DecidableEq

inductive MediaType where
  | image
  | video
deriving Repr, DecidableEq

/-- A `MediaItem` of the manager: an image or video entry with an
optional local file handle and the featured flag. -/
structure MediaItem where
  id : String
  url : String
  file : Option JsFile
  isFeatured : Bool
  mediaType : MediaType
  videoId : Option String
deriving Repr, DecidableEq

/-- The manager's local state: current media plus the crop pipeline
(`pendingFiles`, `currentFileIndex`, `selectedFile`, `showCropper`,
`imageToRecrop`). -/
structure MgrState where
  images : List MediaItem
  pendingFiles : List JsFile
  currentFileIndex : Nat
  selectedFile : Option JsFile
  showCropper : Bool
  imageToRecrop : Option MediaItem
deriving Repr, DecidableEq

/-- A file passes `handleFileSelect`'s validation: at most
`maxFileSize` megabytes and an `image/*` MIME type (the source rejects
on either condition with a toast). -/
def isValidUpload (maxFileSize : Nat) (f : JsFile) : Bool :=
  f.size ≤ maxFileSize * 1024 * 1024 && f.type.startsWith "image/"

/-- `Array.prototype.slice(0, endIdx)`: a negative end counts from the
end of the array (JS semantics, needed because `remainingSlots` is a
possibly negative difference). -/
def jsSliceTo {α : Type} (endIdx : Int) (l : List α) : List α :=
  if endIdx < 0 then l.take ((l.length : Int) + endIdx).toNat
  else l.take endIdx.toNat

/-- `handleFileSelect`: a `null` file list does nothing; otherwise the
selection is truncated to the remaining slots, validated, and — when any
valid file remains — loaded into the crop pipeline.  The media list
itself is never touched here. -/
def handleFileSelect (maxImages maxFileSize : Nat) (files : Option (List JsFile))
    (st : MgrState) : MgrState :=
  match files with
  | none => st
  | some fs =>
    let filesToAdd := jsSliceTo ((maxImages : Int) - st.images.length) fs
    if filesToAdd.isEmpty then st
    else
      let validFiles := filesToAdd.filter (isValidUpload maxFileSize)
      if validFiles.isEmpty then st
      else { st with pendingFiles := validFiles
                   , currentFileIndex := 0
                   , selectedFile := validFiles.head?
                   , showCropper := true }

/-- `handleCropComplete`: in recrop mode the target entry's content is
replaced in place; otherwise one new image entry (built from the cropped
blob, named after the selected file) is appended, featured only when the
media list was empty and this is the first pending file, and the
pipeline advances to the next pending file or resets.  The
nondeterministic bits (object URL, generated name/id, blob size) are
parameters. -/
def handleCropComplete (croppedSize : Nat) (freshUrl freshName freshId : String)
    (st : MgrState) : MgrState :=
  match st.imageToRecrop with
  | some target =>
      { st with
          images := st.images.map (fun img =>
            if img.id == target.id then
              { img with url := freshUrl
                       , file := some { name := freshName, size := croppedSize
                                      , type := "image/jpeg" } }
            else img)
        , showCropper := false
        , imageToRecrop := none }
  | none =>
    match st.selectedFile with
    | none => st
    | some f =>
      let newImage : MediaItem :=
        { id := freshId
        , url := freshUrl
        , file := some { name := f.name, size := croppedSize, type := "image/jpeg" }
        , isFeatured := st.images.isEmpty && st.currentFileIndex == 0
        , mediaType := .image
        , videoId := none }
      if st.currentFileIndex + 1 < st.pendingFiles.length then
        { st with images := st.images ++ [newImage]
                , currentFileIndex := st.currentFileIndex + 1
                , selectedFile := st.pendingFiles[st.currentFileIndex + 1]? }
      else
        { st with images := st.images ++ [newImage]
                , showCropper := false
                , selectedFile := none
                , pendingFiles := []
                , currentFileIndex := 0 }

/-- `setFeaturedImage`: exactly the clicked id keeps the flag. -/
def setFeaturedImage (imageId : String) (images : List MediaItem) : List MediaItem :=
  images.map (fun img => { img with isFeatured := img.id == imageId })

/-- `removeImage`: drop the entries with the given id; if the removed
entry was featured and something remains, the first remaining entry is
promoted. -/
def removeImage (imageId : String) (images : List MediaItem) : List MediaItem :=
  let imageToRemove := images.find? (fun img => img.id == imageId)
  let remaining := images.filter (fun img => img.id != imageId)
  match imageToRemove with
  | some m =>
      if m.isFeatured then
        match remaining with
        | [] => []
        | h :: t => { h with isFeatured := true } :: t
      else remaining
  | none => remaining

/-- Number of featured entries. -/
def featuredCount (l : List MediaItem) : Nat :=
  l.countP (fun m => m.isFeatured)

/-! ## Claim C7: upload validation -/

/-- C7: `handleFileSelect` never touches the media list, and it admits
to the crop pipeline exactly the files of the slot-truncated selection
that are within the size limit and of an `image/*` type (stated from an
idle pipeline, the state in which a selection happens); each completed
non-recrop crop appends exactly one entry derived from the selected —
hence validated — file, so a rejected file never reaches the media
list. -/
theorem handleFileSelect_validation (maxImages maxFileSize : Nat)
    (fs : List JsFile) (st : MgrState) (hidle : st.pendingFiles = []) :
    ((handleFileSelect maxImages maxFileSize (some fs) st).images = st.images) ∧
    (∀ f, f ∈ (handleFileSelect maxImages maxFileSize (some fs) st).pendingFiles ↔
        (f ∈ jsSliceTo ((maxImages : Int) - st.images.length) fs ∧
         f.size ≤ maxFileSize * 1024 * 1024 ∧
         f.type.startsWith "image/" = true)) ∧
    (∀ (croppedSize : Nat) (freshUrl freshName freshId : String) (g : JsFile)
        (st' : MgrState),
      st'.imageToRecrop = none → st'.selectedFile = some g →
      (handleCropComplete croppedSize freshUrl freshName freshId st').images
        = st'.images ++
            [{ id := freshId
             , url := freshUrl
             , file := some { name := g.name, size := croppedSize
                            , type := "image/jpeg" }
             , isFeatured := st'.images.isEmpty && st'.currentFileIndex == 0
             , mediaType := .image
             , videoId := none }]) := by
  refine ⟨?_, ?_, ?_⟩
  · simp only [handleFileSelect]
    split
    · rfl
    · split <;> rfl
  · intro f
    simp only [handleFileSelect]
    by_cases h1 : (jsSliceTo ((maxImages : Int) - st.images.length) fs).isEmpty = true
    · rw [if_pos h1]
      have h1' := List.isEmpty_iff.mp h1
      simp [hidle, h1']
    · rw [if_neg h1]
      by_cases h2 : ((jsSliceTo ((maxImages : Int) - st.images.length) fs).filter
          (isValidUpload maxFileSize)).isEmpty = true
      · rw [if_pos h2]
        have h2' := List.isEmpty_iff.mp h2
        rw [hidle]
        simp only [List.not_mem_nil, false_iff]
        intro hcontra
        have hmem : f ∈ (jsSliceTo ((maxImages : Int) - st.images.length) fs).filter
            (isValidUpload maxFileSize) := by
          refine List.mem_filter.mpr ⟨hcontra.1, ?_⟩
          simp [isValidUpload, hcontra.2.1, hcontra.2.2]
        rw [h2'] at hmem
        exact List.not_mem_nil f hmem
      · rw [if_neg h2]
        simp [List.mem_filter, isValidUpload]
  · intro croppedSize freshUrl freshName freshId g st' hrecrop hsel
    simp only [handleCropComplete, hrecrop, hsel]
    split <;> rfl

theorem handleFileSelect_validation_witness :
    (handleFileSelect 10 5 (some [⟨"big.png", 6291456, "image/png"⟩])
        ⟨[], [], 0, none, false, none⟩).images = [] ∧
    (⟨"big.png", 6291456, "image/png"⟩ : JsFile) ∉
      (handleFileSelect 10 5 (some [⟨"big.png", 6291456, "image/png"⟩])
        ⟨[], [], 0, none, false, none⟩).pendingFiles := by
  have h := handleFileSelect_validation 10 5 [⟨"big.png", 6291456, "image/png"⟩]
    ⟨[], [], 0, none, false, none⟩ rfl
  refine ⟨h.1, fun hmem => ?_⟩
  exact absurd ((h.2.1 _).mp hmem).2.1 (by decide)

/-! ## Helper lemmas: featured counts -/

theorem eq_of_mem_of_length_le_one {α : Type} {l : List α} (h : l.length ≤ 1)
    {x y : α} (hx : x ∈ l) (hy : y ∈ l) : x = y := by
  match l, h with
  | [], _ => cases hx
  | [a], _ =>
    rw [List.mem_singleton] at hx hy
    rw [hx, hy]
  | a :: b :: t, h => simp at h

/-- With at most one featured entry, removing the (found, featured) entry
leaves no featured entry among the remainder. -/
theorem featuredCount_remaining_eq_zero (images : List MediaItem) (i : String)
    (t : MediaItem)
    (hinv : featuredCount images ≤ 1)
    (hfind : images.find? (fun m => m.id == i) = some t)
    (hfeat : t.isFeatured = true) :
    featuredCount (images.filter (fun m => m.id != i)) = 0 := by
  by_contra h
  obtain ⟨x, hxmem, hxfeat⟩ :=
    List.countP_pos_iff.mp (Nat.pos_of_ne_zero h)
  have hxl : x ∈ images := (List.mem_filter.mp hxmem).1
  have hxid : x.id ≠ i := by
    have hb := (List.mem_filter.mp hxmem).2
    simpa using hb
  have htl : t ∈ images := List.mem_of_find?_eq_some hfind
  have htid : t.id = i := by simpa using List.find?_some hfind
  have hxt : x ≠ t := fun he => hxid (he ▸ htid)
  have hx' : x ∈ images.filter (fun m => m.isFeatured) :=
    List.mem_filter.mpr ⟨hxl, hxfeat⟩
  have ht' : t ∈ images.filter (fun m => m.isFeatured) :=
    List.mem_filter.mpr ⟨htl, hfeat⟩
  have hlen : (images.filter (fun m => m.isFeatured)).length ≤ 1 := by
    rw [← List.countP_eq_length_filter]
    exact hinv
  exact hxt (eq_of_mem_of_length_le_one hlen hx' ht')

/-! ## Claim C8: featured-media invariant -/

/-- C8: under the at-most-one-featured invariant, removing the featured
entry with a non-empty remainder yields a list whose head — the first
remaining entry — is featured and in which exactly one entry is
featured.  Moreover `removeImage` preserves the at-most-one invariant,
and `setFeaturedImage` (re)establishes it whenever the media ids are
distinct. -/
theorem removeImage_featured_promotion (images : List MediaItem) (i : String)
    (t : MediaItem)
    (hinv : featuredCount images ≤ 1)
    (hfind : images.find? (fun m => m.id == i) = some t)
    (hfeat : t.isFeatured = true)
    (hne : images.filter (fun m => m.id != i) ≠ []) :
    (∃ h tl, images.filter (fun m => m.id != i) = h :: tl ∧
        removeImage i images = { h with isFeatured := true } :: tl ∧
        featuredCount (removeImage i images) = 1) ∧
    (∀ (l : List MediaItem) (j : String),
        featuredCount l ≤ 1 → featuredCount (removeImage j l) ≤ 1) ∧
    (∀ (l : List MediaItem) (j : String),
        (l.map MediaItem.id).Nodup → featuredCount (setFeaturedImage j l) ≤ 1) := by
  refine ⟨?_, ?_, ?_⟩
  · obtain ⟨h, tl, hrem⟩ : ∃ h tl, images.filter (fun m => m.id != i) = h :: tl := by
      cases hcase : images.filter (fun m => m.id != i) with
      | nil => exact absurd hcase hne
      | cons h tl => exact ⟨h, tl, rfl⟩
    have hzero := featuredCount_remaining_eq_zero images i t hinv hfind hfeat
    rw [hrem] at hzero
    have htl0 : featuredCount tl = 0 := by
      rw [featuredCount, List.countP_cons] at hzero
      rw [featuredCount]
      omega
    have hres : removeImage i images = { h with isFeatured := true } :: tl := by
      simp only [removeImage, hfind, hfeat, hrem, eq_self_iff_true, if_true]
    refine ⟨h, tl, hrem, hres, ?_⟩
    rw [hres, featuredCount, List.countP_cons]
    rw [featuredCount] at htl0
    simp [htl0]
  · intro l j hl
    cases hf : l.find? (fun m => m.id == j) with
    | none =>
      simp only [removeImage, hf]
      exact le_trans (List.Sublist.countP_le _ (List.filter_sublist l)) hl
    | some m =>
      cases hmf : m.isFeatured with
      | false =>
        simp only [removeImage, hf, hmf, Bool.false_eq_true, if_false]
        exact le_trans (List.Sublist.countP_le _ (List.filter_sublist l)) hl
      | true =>
        simp only [removeImage, hf, hmf, eq_self_iff_true, if_true]
        cases hcase : l.filter (fun x => x.id != j) with
        | nil => simp [featuredCount]
        | cons h tl =>
          have hzero := featuredCount_remaining_eq_zero l j m hl hf hmf
          rw [hcase, featuredCount, List.countP_cons] at hzero
          simp only [featuredCount, List.countP_cons]
          simp only [eq_self_iff_true, if_true]
          omega
  · intro l j hnodup
    have hmap : featuredCount (setFeaturedImage j l)
        = List.countP (fun x => x == j) (l.map MediaItem.id) := by
      unfold featuredCount setFeaturedImage
      rw [List.countP_map, List.countP_map]
      rfl
    rw [hmap, ← List.count_eq_countP]
    exact List.nodup_iff_count_le_one.mp hnodup j

theorem removeImage_featured_promotion_witness :
    (∃ h tl, List.filter (fun m => m.id != "a")
        [(⟨"a", "u1", none, true, MediaType.image, none⟩ : MediaItem),
         ⟨"b", "u2", none, false, MediaType.image, none⟩] = h :: tl ∧
        removeImage "a"
            [⟨"a", "u1", none, true, MediaType.image, none⟩,
             ⟨"b", "u2", none, false, MediaType.image, none⟩]
          = { h with isFeatured := true } :: tl ∧
        featuredCount (removeImage "a"
            [⟨"a", "u1", none, true, MediaType.image, none⟩,
             ⟨"b", "u2", none, false, MediaType.image, none⟩]) = 1) ∧
    (∀ (l : List MediaItem) (j : String),
        featuredCount l ≤ 1 → featuredCount (removeImage j l) ≤ 1) ∧
    (∀ (l : List MediaItem) (j : String),
        (l.map MediaItem.id).Nodup → featuredCount (setFeaturedImage j l) ≤ 1) :=
  removeImage_featured_promotion
    [⟨"a", "u1", none, true, MediaType.image, none⟩,
     ⟨"b", "u2", none, false, MediaType.image, none⟩]
    "a" ⟨"a", "u1", none, true, MediaType.image, none⟩
    (by decide) (by decide) rfl (by decide)
/-- The JS whitespace characters \u2014 the full ECMA-262 set that the regex
class `\s` matches and `String.prototype.trim` strips (WhiteSpace plus
LineTerminator): tab, line feed, vertical tab, form feed, carriage
return, space, no-break space, ogham space mark, the en-quad through
hair-space range U+2000\u2013U+200A, line separator, paragraph separator,
narrow no-break space, medium mathematical space, ideographic space,
and the byte-order mark. -/
def jsWsChars : List Char :=
  ['\t', '\n', '\x0b', '\x0c', '\r', ' ', '\u00A0', '\u1680',
   '\u2000', '\u2001', '\u2002', '\u2003', '\u2004', '\u2005', '\u2006',
   '\u2007', '\u2008', '\u2009', '\u200A', '\u2028', '\u2029', '\u202F',
   '\u205F', '\u3000', '\uFEFF']

/-- JS whitespace test (the class the captures exclude and the class
`trim` strips). -/
def isJsWs (c : Char) : Bool := jsWsChars.contains c

/-- The complement class of the captures: ampersand, question mark, or
whitespace. -/
def isDelim (c : Char) : Bool := c == '&' || c == '?' || isJsWs c

/-- The bare-id character class: ASCII alphanumerics, underscore, hyphen. -/
def isIdChar (c : Char) : Bool := c.isAlphanum || c == '_' || c == '-'

/-- The greedy one-or-more capture that follows a matched alternative:
the maximal run of non-delimiter characters, required non-empty. -/
def captureAfter (cs : List Char) : Option (List Char) :=
  let r := cs.takeWhile (fun c => !isDelim c)
  if r.isEmpty then none else some r

/-- Try the regex alternatives, in source order, at the current position;
on a match whose capture would be empty the engine backtracks to the
next alternative. -/
def firstCaptureAux (alts : List (List Char)) (cs : List Char) : Option (List Char) :=
  match alts with
  | [] => none
  | p :: ps =>
    if isPre p cs then
      match captureAfter (cs.drop p.length) with
      | some r => some r
      | none => firstCaptureAux ps cs
    else firstCaptureAux ps cs

/-- Unanchored leftmost regex search: try every position left to right. -/
def scanCapture (alts : List (List Char)) : List Char → Option (List Char)
  | [] => none
  | c :: cs =>
    match firstCaptureAux alts (c :: cs) with
    | some r => some r
    | none => scanCapture alts cs

/-- The literal stems of the three alternation branches of the first
pattern of `extractYouTubeVideoId`, then the stems of the two standalone
patterns; the equations below relate them to the source literals. -/
def patWatch : List Char :=
  ['y','o','u','t','u','b','e','.','c','o','m','/','w','a','t','c','h','?','v','=']
def patShort : List Char := ['y','o','u','t','u','.','b','e','/']
def patEmbed : List Char :=
  ['y','o','u','t','u','b','e','.','c','o','m','/','e','m','b','e','d','/']
def patShorts : List Char :=
  ['y','o','u','t','u','b','e','.','c','o','m','/','s','h','o','r','t','s','/']
def patV : List Char := ['y','o','u','t','u','b','e','.','c','o','m','/','v','/']

theorem patWatch_eq : patWatch = "youtube.com/watch?v=".toList := rfl
theorem patShort_eq : patShort = "youtu.be/".toList := rfl
theorem patEmbed_eq : patEmbed = "youtube.com/embed/".toList := rfl
theorem patShorts_eq : patShorts = "youtube.com/shorts/".toList := rfl
theorem patV_eq : patV = "youtube.com/v/".toList := rfl

/-- JS trim: strip whitespace from both ends. -/
def jsTrim (cs : List Char) : List Char :=
  ((cs.dropWhile isJsWs).reverse.dropWhile isJsWs).reverse

/-- `extractYouTubeVideoId` on character lists: empty input is falsy and
yields `null`; the three regexes are tried in order, and finally the
trimmed input is accepted when it is a bare 11-character id. -/
def extractYouTubeVideoIdL (cs : List Char) : Option (List Char) :=
  if cs.isEmpty then none
  else
    match scanCapture [patWatch, patShort, patEmbed] cs with
    | some r => some r
    | none =>
      match scanCapture [patShorts] cs with
      | some r => some r
      | none =>
        match scanCapture [patV] cs with
        | some r => some r
        | none =>
          let t := jsTrim cs
          if t.length = 11 && t.all isIdChar then some t else none

/-- `extractYouTubeVideoId` on strings. -/
def extractYouTubeVideoId (s : String) : Option String :=
  (extractYouTubeVideoIdL s.toList).map (fun l => String.mk l)

theorem mem_of_isPre {p l : List Char} (h : isPre p l = true) : ∀ c ∈ p, c ∈ l := by
  induction p generalizing l with
  | nil => intro c hc; cases hc
  | cons a as ih =>
    cases l with
    | nil => simp [isPre] at h
    | cons b bs =>
      rw [isPre] at h
      split at h
      · rename_i hab
        intro c hc
        rcases List.mem_cons.mp hc with rfl | hc'
        · rw [hab]; exact List.mem_cons_self b bs
        · exact List.mem_cons_of_mem _ (ih h c hc')
      · cases h

theorem idChar_not_delim (c : Char) (h : isIdChar c = true) : isDelim c = false := by
  by_contra hd
  have hd' : isDelim c = true := by revert hd; cases isDelim c <;> simp
  simp only [isDelim, isJsWs, Bool.or_eq_true, beq_iff_eq] at hd'
  have hmem : c ∈ '&' :: '?' :: jsWsChars := by
    rcases hd' with (rfl | rfl) | hws
    · exact List.mem_cons_self _ _
    · exact List.mem_cons_of_mem _ (List.mem_cons_self _ _)
    · exact List.mem_cons_of_mem _ (List.mem_cons_of_mem _ (by simpa using hws))
  have hall : ∀ x ∈ '&' :: '?' :: jsWsChars, isIdChar x = false := by decide
  rw [hall c hmem] at h
  cases h

theorem isPre_false_of_all_idChar (p : List Char) (hp : '.' ∈ p)
    (id : List Char) (hid : id.all isIdChar = true) : isPre p id = false := by
  by_contra h
  have h' : isPre p id = true := by revert h; cases isPre p id <;> simp
  have hdot : '.' ∈ id := mem_of_isPre h' '.' hp
  have := List.all_eq_true.mp hid '.' hdot
  exact absurd this (by decide)

theorem firstCaptureAux_none_of_no_hit (alts : List (List Char)) (cs : List Char)
    (h : ∀ p ∈ alts, isPre p cs = false) : firstCaptureAux alts cs = none := by
  induction alts with
  | nil => rfl
  | cons p ps ih =>
    simp only [firstCaptureAux, h p (List.mem_cons_self p ps), Bool.false_eq_true,
      if_false]
    exact ih (fun q hq => h q (List.mem_cons_of_mem _ hq))

theorem scanCapture_none_of_no_hit (alts : List (List Char)) :
    ∀ cs : List Char, (∀ i : Nat, ∀ p ∈ alts, isPre p (cs.drop i) = false) →
      scanCapture alts cs = none := by
  intro cs
  induction cs with
  | nil => intro _; rfl
  | cons c cs ih =>
    intro h
    have h0 : ∀ p ∈ alts, isPre p (c :: cs) = false := fun p hp => by
      have := h 0 p hp; simpa using this
    simp only [scanCapture, firstCaptureAux_none_of_no_hit alts _ h0]
    exact ih (fun i p hp => by have := h (i + 1) p hp; simpa using this)

theorem scanCapture_none_of_all_idChar (alts : List (List Char))
    (halts : ∀ p ∈ alts, '.' ∈ p)
    (id : List Char) (hid : id.all isIdChar = true) : scanCapture alts id = none := by
  apply scanCapture_none_of_no_hit
  intro i p hp
  apply isPre_false_of_all_idChar p (halts p hp)
  rw [List.all_eq_true] at hid ⊢
  exact fun c hc => hid c (List.mem_of_mem_drop hc)

theorem takeWhile_eq_self_of_idChar (id : List Char) (hid : id.all isIdChar = true) :
    id.takeWhile (fun c => !isDelim c) = id := by
  rw [List.takeWhile_eq_self_iff]
  intro c hc
  have h := List.all_eq_true.mp hid c hc
  simp [idChar_not_delim c h]

theorem captureAfter_idChar (id : List Char) (h1 : ¬ id = [])
    (h2 : id.all isIdChar = true) : captureAfter id = some id := by
  simp [captureAfter, takeWhile_eq_self_of_idChar id h2, List.isEmpty_iff, h1]

theorem idChar_not_ws (c : Char) (h : isIdChar c = true) : isJsWs c = false := by
  have hd := idChar_not_delim c h
  simp only [isDelim, Bool.or_eq_false_iff] at hd
  exact hd.2

theorem dropWhile_ws_eq_self (l : List Char) (hl : l.all isIdChar = true) :
    l.dropWhile isJsWs = l := by
  cases l with
  | nil => rfl
  | cons c cs =>
    rw [List.dropWhile_cons]
    have hc := List.all_eq_true.mp hl c (List.mem_cons_self c cs)
    simp [idChar_not_ws c hc]

theorem jsTrim_idChar (id : List Char) (h : id.all isIdChar = true) :
    jsTrim id = id := by
  unfold jsTrim
  rw [dropWhile_ws_eq_self id h]
  have hrev : id.reverse.all isIdChar = true := by
    rw [List.all_eq_true] at h ⊢
    exact fun c hc => h c (List.mem_reverse.mp hc)
  rw [dropWhile_ws_eq_self id.reverse hrev, List.reverse_reverse]

-- shape scan lemmas
theorem scan1_watch (id : List Char) (h1 : ¬ id = []) (h2 : id.all isIdChar = true) :
    scanCapture [patWatch, patShort, patEmbed]
      ("https://www.youtube.com/watch?v=".toList ++ id) = some id := by
  have hc := captureAfter_idChar id h1 h2
  rw [show "https://www.youtube.com/watch?v=".toList
      = ['h','t','t','p','s',':','/','/','w','w','w','.','y','o','u','t','u','b','e','.','c','o','m','/','w','a','t','c','h','?','v','='] from rfl]
  simp [scanCapture, firstCaptureAux, isPre, patWatch, patShort, patEmbed, hc]

theorem scan1_short (id : List Char) (h1 : ¬ id = []) (h2 : id.all isIdChar = true) :
    scanCapture [patWatch, patShort, patEmbed]
      ("https://youtu.be/".toList ++ id) = some id := by
  have hc := captureAfter_idChar id h1 h2
  rw [show "https://youtu.be/".toList
      = ['h','t','t','p','s',':','/','/','y','o','u','t','u','.','b','e','/'] from rfl]
  simp [scanCapture, firstCaptureAux, isPre, patWatch, patShort, patEmbed, hc]

theorem scan1_embed (id : List Char) (h1 : ¬ id = []) (h2 : id.all isIdChar = true) :
    scanCapture [patWatch, patShort, patEmbed]
      ("https://www.youtube.com/embed/".toList ++ id) = some id := by
  have hc := captureAfter_idChar id h1 h2
  rw [show "https://www.youtube.com/embed/".toList
      = ['h','t','t','p','s',':','/','/','w','w','w','.','y','o','u','t','u','b','e','.','c','o','m','/','e','m','b','e','d','/'] from rfl]
  simp [scanCapture, firstCaptureAux, isPre, patWatch, patShort, patEmbed, hc]

theorem scan1_shorts_none (id : List Char) (h2 : id.all isIdChar = true) :
    scanCapture [patWatch, patShort, patEmbed]
      ("https://www.youtube.com/shorts/".toList ++ id) = none := by
  have hnone := scanCapture_none_of_all_idChar [patWatch, patShort, patEmbed]
    (by decide) id h2
  simp only [patWatch, patShort, patEmbed] at hnone
  rw [show "https://www.youtube.com/shorts/".toList
      = ['h','t','t','p','s',':','/','/','w','w','w','.','y','o','u','t','u','b','e','.','c','o','m','/','s','h','o','r','t','s','/'] from rfl]
  simp [scanCapture, firstCaptureAux, isPre, patWatch, patShort, patEmbed, hnone]

theorem scan2_shorts (id : List Char) (h1 : ¬ id = []) (h2 : id.all isIdChar = true) :
    scanCapture [patShorts] ("https://www.youtube.com/shorts/".toList ++ id) = some id := by
  have hc := captureAfter_idChar id h1 h2
  rw [show "https://www.youtube.com/shorts/".toList
      = ['h','t','t','p','s',':','/','/','w','w','w','.','y','o','u','t','u','b','e','.','c','o','m','/','s','h','o','r','t','s','/'] from rfl]
  simp [scanCapture, firstCaptureAux, isPre, patShorts, hc]

theorem scan1_v_none (id : List Char) (h2 : id.all isIdChar = true) :
    scanCapture [patWatch, patShort, patEmbed]
      ("https://www.youtube.com/v/".toList ++ id) = none := by
  have hnone := scanCapture_none_of_all_idChar [patWatch, patShort, patEmbed]
    (by decide) id h2
  simp only [patWatch, patShort, patEmbed] at hnone
  rw [show "https://www.youtube.com/v/".toList
      = ['h','t','t','p','s',':','/','/','w','w','w','.','y','o','u','t','u','b','e','.','c','o','m','/','v','/'] from rfl]
  simp [scanCapture, firstCaptureAux, isPre, patWatch, patShort, patEmbed, hnone]

theorem scan2_v_none (id : List Char) (h2 : id.all isIdChar = true) :
    scanCapture [patShorts] ("https://www.youtube.com/v/".toList ++ id) = none := by
  have hnone := scanCapture_none_of_all_idChar [patShorts] (by decide) id h2
  simp only [patShorts] at hnone
  rw [show "https://www.youtube.com/v/".toList
      = ['h','t','t','p','s',':','/','/','w','w','w','.','y','o','u','t','u','b','e','.','c','o','m','/','v','/'] from rfl]
  simp [scanCapture, firstCaptureAux, isPre, patShorts, hnone]

theorem scan3_v (id : List Char) (h1 : ¬ id = []) (h2 : id.all isIdChar = true) :
    scanCapture [patV] ("https://www.youtube.com/v/".toList ++ id) = some id := by
  have hc := captureAfter_idChar id h1 h2
  rw [show "https://www.youtube.com/v/".toList
      = ['h','t','t','p','s',':','/','/','w','w','w','.','y','o','u','t','u','b','e','.','c','o','m','/','v','/'] from rfl]
  simp [scanCapture, firstCaptureAux, isPre, patV, hc]

theorem extractL_of_scan1 (cs : List Char) (r : List Char) (hne : ¬ cs = [])
    (h : scanCapture [patWatch, patShort, patEmbed] cs = some r) :
    extractYouTubeVideoIdL cs = some r := by
  simp [extractYouTubeVideoIdL, h, List.isEmpty_iff, hne]

theorem extractL_of_scan2 (cs : List Char) (r : List Char) (hne : ¬ cs = [])
    (h1 : scanCapture [patWatch, patShort, patEmbed] cs = none)
    (h2 : scanCapture [patShorts] cs = some r) :
    extractYouTubeVideoIdL cs = some r := by
  simp [extractYouTubeVideoIdL, h1, h2, List.isEmpty_iff, hne]

theorem extractL_of_scan3 (cs : List Char) (r : List Char) (hne : ¬ cs = [])
    (h1 : scanCapture [patWatch, patShort, patEmbed] cs = none)
    (h2 : scanCapture [patShorts] cs = none)
    (h3 : scanCapture [patV] cs = some r) :
    extractYouTubeVideoIdL cs = some r := by
  simp [extractYouTubeVideoIdL, h1, h2, h3, List.isEmpty_iff, hne]

theorem extractL_bare (id : List Char) (h11 : id.length = 11)
    (hall : id.all isIdChar = true) : extractYouTubeVideoIdL id = some id := by
  have hne : ¬ id = [] := by
    intro h
    rw [h] at h11
    simp at h11
  have h1 : scanCapture [patWatch, patShort, patEmbed] id = none :=
    scanCapture_none_of_all_idChar _ (by decide) id hall
  have h2 : scanCapture [patShorts] id = none :=
    scanCapture_none_of_all_idChar _ (by decide) id hall
  have h3 : scanCapture [patV] id = none :=
    scanCapture_none_of_all_idChar _ (by decide) id hall
  simp [extractYouTubeVideoIdL, h1, h2, h3, List.isEmpty_iff, hne,
    jsTrim_idChar id hall, h11, hall]

theorem extractL_none (cs : List Char)
    (hw : ∀ i : Nat, isPre patWatch (cs.drop i) = false)
    (hs : ∀ i : Nat, isPre patShort (cs.drop i) = false)
    (he : ∀ i : Nat, isPre patEmbed (cs.drop i) = false)
    (hsh : ∀ i : Nat, isPre patShorts (cs.drop i) = false)
    (hv : ∀ i : Nat, isPre patV (cs.drop i) = false)
    (hbare : ¬((jsTrim cs).length = 11 ∧ (jsTrim cs).all isIdChar = true)) :
    extractYouTubeVideoIdL cs = none := by
  have h1 : scanCapture [patWatch, patShort, patEmbed] cs = none := by
    apply scanCapture_none_of_no_hit
    intro i p hp
    simp only [List.mem_cons, List.not_mem_nil, or_false] at hp
    rcases hp with rfl | rfl | rfl
    · exact hw i
    · exact hs i
    · exact he i
  have h2 : scanCapture [patShorts] cs = none := by
    apply scanCapture_none_of_no_hit
    intro i p hp
    simp only [List.mem_cons, List.not_mem_nil, or_false] at hp
    rcases hp with rfl
    exact hsh i
  have h3 : scanCapture [patV] cs = none := by
    apply scanCapture_none_of_no_hit
    intro i p hp
    simp only [List.mem_cons, List.not_mem_nil, or_false] at hp
    rcases hp with rfl
    exact hv i
  by_cases hne : cs = []
  · rw [hne]; rfl
  · simp only [extractYouTubeVideoIdL, h1, h2, h3, List.isEmpty_iff, hne, if_false]
    rw [if_neg]
    intro hcond
    apply hbare
    simp only [Bool.and_eq_true, decide_eq_true_eq] at hcond
    exact hcond

theorem isPre_drop_false (p : List Char) (hp : ¬ p = []) (cs : List Char)
    (h : (List.range cs.length).all (fun i => !(isPre p (cs.drop i))) = true) :
    ∀ i : Nat, isPre p (cs.drop i) = false := by
  intro i
  by_cases hi : i < cs.length
  · have := List.all_eq_true.mp h i (List.mem_range.mpr hi)
    simpa using this
  · rw [List.drop_eq_nil_of_le (le_of_not_lt hi)]
    cases p with
    | nil => exact absurd rfl hp
    | cons a as => rfl

/-- C6: `extractYouTubeVideoId` maps the documented example URL to its id
and a non-URL to `null`; for every non-empty id of valid id characters,
each of the five URL shapes (watch, short link, embed, shorts, `/v/`)
yields exactly that id, as does a bare 11-character id; and every input
containing none of the five URL markers whose trimmed form is not a bare
11-character id yields `null`. -/
theorem extractYouTubeVideoId_spec :
    extractYouTubeVideoId "https://youtu.be/dQw4w9WgXcQ" = some "dQw4w9WgXcQ" ∧
    extractYouTubeVideoId "not a url" = none ∧
    (∀ id : List Char, ¬ id = [] → id.all isIdChar = true →
      extractYouTubeVideoIdL ("https://www.youtube.com/watch?v=".toList ++ id) = some id ∧
      extractYouTubeVideoIdL ("https://youtu.be/".toList ++ id) = some id ∧
      extractYouTubeVideoIdL ("https://www.youtube.com/embed/".toList ++ id) = some id ∧
      extractYouTubeVideoIdL ("https://www.youtube.com/shorts/".toList ++ id) = some id ∧
      extractYouTubeVideoIdL ("https://www.youtube.com/v/".toList ++ id) = some id) ∧
    (∀ id : List Char, id.length = 11 → id.all isIdChar = true →
      extractYouTubeVideoIdL id = some id) ∧
    (∀ cs : List Char,
      (∀ i : Nat, isPre patWatch (cs.drop i) = false) →
      (∀ i : Nat, isPre patShort (cs.drop i) = false) →
      (∀ i : Nat, isPre patEmbed (cs.drop i) = false) →
      (∀ i : Nat, isPre patShorts (cs.drop i) = false) →
      (∀ i : Nat, isPre patV (cs.drop i) = false) →
      ¬((jsTrim cs).length = 11 ∧ (jsTrim cs).all isIdChar = true) →
      extractYouTubeVideoIdL cs = none) := by
  refine ⟨by decide, by decide, ?_, extractL_bare, extractL_none⟩
  intro id h1 h2
  exact ⟨extractL_of_scan1 _ _ (by simp) (scan1_watch id h1 h2),
         extractL_of_scan1 _ _ (by simp) (scan1_short id h1 h2),
         extractL_of_scan1 _ _ (by simp) (scan1_embed id h1 h2),
         extractL_of_scan2 _ _ (by simp) (scan1_shorts_none id h2) (scan2_shorts id h1 h2),
         extractL_of_scan3 _ _ (by simp) (scan1_v_none id h2) (scan2_v_none id h2)
           (scan3_v id h1 h2)⟩

theorem extractYouTubeVideoId_spec_witness :
    extractYouTubeVideoIdL
        ("https://www.youtube.com/shorts/".toList ++ "dQw4w9WgXcQ".toList)
      = some "dQw4w9WgXcQ".toList ∧
    extractYouTubeVideoIdL "dQw4w9WgXcQ".toList = some "dQw4w9WgXcQ".toList ∧
    extractYouTubeVideoIdL "hello world!".toList = none :=
  ⟨(extractYouTubeVideoId_spec.2.2.1 "dQw4w9WgXcQ".toList (by decide)
      (by decide)).2.2.2.1,
   extractYouTubeVideoId_spec.2.2.2.1 "dQw4w9WgXcQ".toList (by decide) (by decide),
   extractYouTubeVideoId_spec.2.2.2.2 "hello world!".toList
     (isPre_drop_false _ (by decide) _ (by decide))
     (isPre_drop_false _ (by decide) _ (by decide))
     (isPre_drop_false _ (by decide) _ (by decide))
     (isPre_drop_false _ (by decide) _ (by decide))
     (isPre_drop_false _ (by decide) _ (by decide))
     (by decide)⟩

end Fanfast
